import Mathlib

/-!
Shallow embedding of `src/audio_visualizer.py` (an audio bar-visualizer demo)
and verification of its specification claims.

Float samples are modelled as rationals.  Python `int()` truncation toward
zero, numpy `astype(np.int16)` conversion (truncate then wrap modulo 2^16),
and Python list slicing are embedded explicitly.  The per-frame update
`update_visualization` is modelled as a pure function from the elapsed time
and the bar list to the new bar list together with the continue/stop signal
returned to the task manager.
-/

namespace AudioVisualizer

/-- Python `int()` applied to a rational: truncation toward zero. -/
def pyInt (q : ℚ) : ℤ := if 0 ≤ q then ⌊q⌋ else ⌈q⌉

/-- Wrap an integer into the signed 16-bit range, as numpy `astype(np.int16)`
does after truncation (two's-complement wraparound, not clipping). -/
def toInt16 (z : ℤ) : ℤ := (z + 32768) % 65536 - 32768

/-- Conversion of one float sample to a playback sample:
`(x * 32767).astype(np.int16)` (line 43 of the source). -/
def playbackSample (x : ℚ) : ℤ := toInt16 (pyInt (x * 32767))

/-- The conversion the spec describes instead: round to nearest, then clip
to the signed 16-bit range. -/
def specPlaybackSample (x : ℚ) : ℤ := max (-32768) (min 32767 (round (x * 32767)))

/-- Raw decoded audio as returned by `sf.read`: either a one-dimensional
array of samples or a two-dimensional array of frames (one row per sample
position, one column per channel). -/
inductive RawAudio where
  | mono (samples : List ℚ)
  | multi (frames : List (List ℚ))
deriving DecidableEq, Repr

/-- Mono conversion (lines 39-40 of the source): a one-dimensional buffer is
left unchanged; a multi-channel buffer is replaced by `mean(axis=1)`, the
per-row arithmetic mean. -/
def toMono : RawAudio → List ℚ
  | .mono samples => samples
  | .multi frames => frames.map (fun f => f.sum / (f.length : ℚ))

/-- Normalize one bound of a Python slice `xs[a:b]` for a list of length
`len`: negative indices count from the end (clamped below by 0), nonnegative
indices are clamped above by `len`. -/
def pySliceIdx (len : ℕ) (i : ℤ) : ℕ :=
  if i < 0 then ((len : ℤ) + i).toNat else min i.toNat len

/-- Python slice `xs[a:b]`. -/
def pySlice (xs : List ℚ) (a b : ℤ) : List ℚ :=
  (xs.take (pySliceIdx xs.length b)).drop (pySliceIdx xs.length a)

/-- Scale vector of a bar node (`setScale(sx, sy, sz)`): `x` is the width,
`y` the depth and `z` the height component. -/
structure Scale where
  x : ℚ
  y : ℚ
  z : ℚ
deriving DecidableEq, Repr

/-- Color of a bar node (`setColor(r, g, b, a)`). -/
structure Color where
  r : ℚ
  g : ℚ
  b : ℚ
  a : ℚ
deriving DecidableEq, Repr

/-- A visualization bar: position, scale and color of one cuboid node. -/
structure Bar where
  pos : ℚ × ℚ × ℚ
  scale : Scale
  color : Color
deriving DecidableEq, Repr

instance : Inhabited Bar :=
  ⟨{ pos := (0, 0, 0), scale := ⟨0, 0, 0⟩, color := ⟨0, 0, 0, 0⟩ }⟩

/-- `self.num_bars = 64` (line 97). -/
def num_bars : ℕ := 64

/-- One bar as created by `prepare_bars` (lines 101-122): position
`((i - num_bars/2) * 0.5, 0, 0)`, scale `(0.4, 0.1, 0.1)`, color
`(1.0, 0.5 + i/num_bars, 0.2 + i/num_bars, 1)`. -/
def mkBar (i : ℕ) : Bar :=
  { pos := (((i : ℚ) - (num_bars : ℚ) / 2) * (1/2), 0, 0)
    scale := ⟨2/5, 1/10, 1/10⟩
    color := ⟨1, 1/2 + (i : ℚ) / (num_bars : ℚ), 1/5 + (i : ℚ) / (num_bars : ℚ), 1⟩ }

/-- `prepare_bars` (lines 92-122): the list of 64 bars created at startup. -/
def prepare_bars : List Bar := (List.range num_bars).map mkBar

/-- Static per-run configuration read by the frame update: the mono sample
buffer `self.audio_data` and `self.sample_rate`. -/
structure Config where
  audio_data : List ℚ
  sample_rate : ℚ
deriving DecidableEq, Repr

/-- Return value of a Panda3D task: `Task.cont` reschedules the callback,
`Task.done` stops it. -/
inductive TaskSignal where
  | cont
  | done
deriving DecidableEq, Repr

/-- `start_sample = int(current_time * self.sample_rate)` (line 132). -/
def start_sample (t rate : ℚ) : ℤ := pyInt (t * rate)

/-- `chunk = self.audio_data[start_sample:start_sample + self.num_bars]`
(line 139). -/
def chunkAt (cfg : Config) (start : ℤ) : List ℚ :=
  pySlice cfg.audio_data start (start + (num_bars : ℤ))

/-- Body of the enumerate loop (lines 142-146): the bar at loop index `i` is
rescaled to `(bar.getScale().x, 0.1, max(0.1, abs(chunk[i]) * 10))` when
`i < len(chunk)`, and left unchanged otherwise. -/
def updateBar (chunk : List ℚ) (i : ℕ) (bar : Bar) : Bar :=
  if h : i < chunk.length then
    { bar with scale := ⟨bar.scale.x, 1/10, max (1/10) (|chunk.get ⟨i, h⟩| * 10)⟩ }
  else bar

/-- The `for i, bar in enumerate(self.bars)` loop, with `i` starting at the
given index. -/
def updateBarsFrom (chunk : List ℚ) (i : ℕ) : List Bar → List Bar
  | [] => []
  | b :: bs => updateBar chunk i b :: updateBarsFrom chunk (i + 1) bs

/-- `update_visualization` (lines 124-148) as a pure function of the elapsed
task time `t` and the current bar list: returns the new bar list and the
task signal.  When `start_sample + num_bars >= len(audio_data)` the bars are
untouched and `Task.done` is returned; otherwise every bar is updated from
the extracted chunk and `Task.cont` is returned. -/
def update_visualization (cfg : Config) (t : ℚ) (bars : List Bar) :
    List Bar × TaskSignal :=
  let start := start_sample t cfg.sample_rate
  if (cfg.audio_data.length : ℤ) ≤ start + (num_bars : ℤ) then
    (bars, .done)
  else
    (updateBarsFrom (chunkAt cfg start) 0 bars, .cont)

/-- Heights determined by the elapsed time and the sample buffer alone: the
height the running update assigns to bar `i` is
`max(0.1, |audio_data[start + i]| * 10)`. -/
def heightsAt (cfg : Config) (t : ℚ) : List ℚ :=
  (List.range num_bars).map fun i =>
    max (1/10) (|cfg.audio_data.getD ((start_sample t cfg.sample_rate).toNat + i) 0| * 10)

/-- Outcome of `AudioVisualizer.__init__` (lines 11-55), recording the
loaded buffers and which initialization steps ran. -/
structure InitResult where
  audio_data : List ℚ
  sample_rate : ℚ
  playback_data : List ℤ
  playbackSubmitted : Bool
  sceneSetup : Bool
  bars : List Bar
  updateScheduled : Bool
  terminated : Bool
deriving DecidableEq, Repr

/-- `AudioVisualizer.__init__` as a function of the decode outcome (`none`
models `sf.read` raising an exception).  On failure the fallback buffer
`np.zeros(1024)` and rate 44100 are installed (lines 33-36) and every later
initialization step still runs. -/
def initVisualizer (decoded : Option (RawAudio × ℚ)) : InitResult :=
  let loaded := match decoded with
    | some dr => dr
    | none => (RawAudio.mono (List.replicate 1024 0), (44100 : ℚ))
  let data := toMono loaded.1
  { audio_data := data
    sample_rate := loaded.2
    playback_data := data.map playbackSample
    playbackSubmitted := true
    sceneSetup := true
    bars := prepare_bars
    updateScheduled := true
    terminated := false }

/-- Observable outcome of `main` (lines 150-161). -/
structure MainResult where
  printedNotFound : Bool
  app : Option InitResult
deriving DecidableEq, Repr

/-- `main`: when the hardcoded file path does not exist, print the
file-not-found message and return before constructing the application;
otherwise construct and run it. -/
def pyMain (fileExists : Bool) (decoded : Option (RawAudio × ℚ)) : MainResult :=
  if fileExists then
    { printedNotFound := false, app := some (initVisualizer decoded) }
  else
    { printedNotFound := true, app := none }

/-- Bar lists reachable in a run: the initial list from `prepare_bars`,
closed under frame updates at nonnegative elapsed times. -/
inductive Reachable (cfg : Config) : List Bar → Prop
  | init : Reachable cfg prepare_bars
  | step (t : ℚ) (bars : List Bar) (ht : 0 ≤ t) :
      Reachable cfg bars → Reachable cfg (update_visualization cfg t bars).1

/-! ### Helper lemmas -/

theorem pyInt_of_nonneg {q : ℚ} (h : 0 ≤ q) : pyInt q = ⌊q⌋ := if_pos h

theorem start_sample_eq_floor {t rate : ℚ} (ht : 0 ≤ t) (hr : 0 ≤ rate) :
    start_sample t rate = ⌊t * rate⌋ :=
  pyInt_of_nonneg (mul_nonneg ht hr)

theorem start_sample_nonneg {t rate : ℚ} (ht : 0 ≤ t) (hr : 0 ≤ rate) :
    0 ≤ start_sample t rate := by
  rw [start_sample_eq_floor ht hr]
  exact Int.floor_nonneg.2 (mul_nonneg ht hr)

theorem start_sample_mono {t t' rate : ℚ} (ht : 0 ≤ t) (htt : t ≤ t') (hr : 0 ≤ rate) :
    start_sample t rate ≤ start_sample t' rate := by
  rw [start_sample_eq_floor ht hr, start_sample_eq_floor (ht.trans htt) hr]
  exact Int.floor_le_floor (mul_le_mul_of_nonneg_right htt hr)

theorem pySlice_length (xs : List ℚ) (a : ℤ) (k : ℕ) (ha : 0 ≤ a)
    (hlen : a + (k : ℤ) ≤ (xs.length : ℤ)) :
    (pySlice xs a (a + (k : ℤ))).length = k := by
  obtain ⟨n, rfl⟩ := Int.eq_ofNat_of_zero_le ha
  have hnk : n + k ≤ xs.length := by exact_mod_cast hlen
  have hb : ¬ ((n : ℤ) + (k : ℤ) < 0) := by omega
  have ha' : ¬ ((n : ℤ) < 0) := by omega
  simp only [pySlice, pySliceIdx, if_neg hb, if_neg ha']
  have h1 : ((n : ℤ) + (k : ℤ)).toNat = n + k := by omega
  have h2 : ((n : ℤ)).toNat = n := Int.toNat_ofNat n
  rw [h1, h2, List.length_drop, List.length_take]
  omega

theorem pySlice_getElem? (xs : List ℚ) (a : ℤ) (k i : ℕ) (ha : 0 ≤ a)
    (hlen : a + (k : ℤ) ≤ (xs.length : ℤ)) (hik : i < k) :
    (pySlice xs a (a + (k : ℤ)))[i]? = xs[a.toNat + i]? := by
  obtain ⟨n, rfl⟩ := Int.eq_ofNat_of_zero_le ha
  have hb : ¬ ((n : ℤ) + (k : ℤ) < 0) := by omega
  have ha' : ¬ ((n : ℤ) < 0) := by omega
  have hnk : n + k ≤ xs.length := by exact_mod_cast hlen
  simp only [pySlice, pySliceIdx, if_neg hb, if_neg ha']
  have h1 : ((n : ℤ) + (k : ℤ)).toNat = n + k := by omega
  have h2 : ((n : ℤ)).toNat = n := Int.toNat_ofNat n
  rw [h1, h2, Nat.min_eq_left hnk, Nat.min_eq_left (le_trans (Nat.le_add_right n k) hnk),
    List.getElem?_drop, List.getElem?_take_of_lt (by omega)]

theorem chunkAt_length (cfg : Config) (start : ℤ) (h0 : 0 ≤ start)
    (hlen : start + (num_bars : ℤ) ≤ (cfg.audio_data.length : ℤ)) :
    (chunkAt cfg start).length = num_bars :=
  pySlice_length cfg.audio_data start num_bars h0 hlen

theorem chunkAt_getElem? (cfg : Config) (start : ℤ) (i : ℕ) (h0 : 0 ≤ start)
    (hlen : start + (num_bars : ℤ) ≤ (cfg.audio_data.length : ℤ)) (hi : i < num_bars) :
    (chunkAt cfg start)[i]? = cfg.audio_data[start.toNat + i]? :=
  pySlice_getElem? cfg.audio_data start num_bars i h0 hlen hi

theorem updateBarsFrom_length (chunk : List ℚ) :
    ∀ (j : ℕ) (bars : List Bar), (updateBarsFrom chunk j bars).length = bars.length
  | _, [] => rfl
  | j, _ :: bs => by
      simp [updateBarsFrom, updateBarsFrom_length chunk (j + 1) bs]

theorem updateBarsFrom_getElem? (chunk : List ℚ) :
    ∀ (j i : ℕ) (bars : List Bar),
      (updateBarsFrom chunk j bars)[i]? = (bars[i]?).map (updateBar chunk (j + i))
  | _, _, [] => by simp [updateBarsFrom]
  | _, 0, _ :: _ => by simp [updateBarsFrom]
  | j, i + 1, _ :: bs => by
      have h : j + 1 + i = j + (i + 1) := by omega
      simp only [updateBarsFrom, List.getElem?_cons_succ,
        updateBarsFrom_getElem? chunk (j + 1) i bs, h]

theorem update_length (cfg : Config) (t : ℚ) (bars : List Bar) :
    (update_visualization cfg t bars).1.length = bars.length := by
  simp only [update_visualization]
  split
  · rfl
  · exact updateBarsFrom_length _ _ bars

theorem update_run (cfg : Config) (t : ℚ) (bars : List Bar)
    (hrun : start_sample t cfg.sample_rate + (num_bars : ℤ) < (cfg.audio_data.length : ℤ)) :
    update_visualization cfg t bars
      = (updateBarsFrom (chunkAt cfg (start_sample t cfg.sample_rate)) 0 bars, .cont) := by
  simp [update_visualization, not_le.2 hrun]

theorem update_run_bar (cfg : Config) (t : ℚ) (bars : List Bar) (i : ℕ)
    (ht : 0 ≤ t) (hr : 0 ≤ cfg.sample_rate)
    (hrun : start_sample t cfg.sample_rate + (num_bars : ℤ) < (cfg.audio_data.length : ℤ))
    (hi : i < bars.length) (hib : i < num_bars) :
    (update_visualization cfg t bars).1[i]?
      = some { bars.get ⟨i, hi⟩ with scale :=
          ⟨(bars.get ⟨i, hi⟩).scale.x, 1/10,
            max (1/10)
              (|cfg.audio_data.getD ((start_sample t cfg.sample_rate).toNat + i) 0| * 10)⟩ } := by
  have h0 : 0 ≤ start_sample t cfg.sample_rate := start_sample_nonneg ht hr
  have hle : start_sample t cfg.sample_rate + (num_bars : ℤ) ≤ (cfg.audio_data.length : ℤ) :=
    le_of_lt hrun
  have hclen : (chunkAt cfg (start_sample t cfg.sample_rate)).length = num_bars :=
    chunkAt_length cfg _ h0 hle
  have hidx : (start_sample t cfg.sample_rate).toNat + i < cfg.audio_data.length := by omega
  have hc : (chunkAt cfg (start_sample t cfg.sample_rate))[i]?
      = cfg.audio_data[(start_sample t cfg.sample_rate).toNat + i]? :=
    chunkAt_getElem? cfg _ i h0 hle hib
  have hib' : i < (chunkAt cfg (start_sample t cfg.sample_rate)).length := by omega
  have hcv : (chunkAt cfg (start_sample t cfg.sample_rate)).get ⟨i, hib'⟩
      = cfg.audio_data.getD ((start_sample t cfg.sample_rate).toNat + i) 0 := by
    rw [List.getD_eq_getElem?_getD, ← hc, List.getElem?_eq_getElem hib']
    rfl
  rw [update_run cfg t bars hrun, updateBarsFrom_getElem?, List.getElem?_eq_getElem hi]
  show some (updateBar (chunkAt cfg (start_sample t cfg.sample_rate)) (0 + i)
      (bars.get ⟨i, hi⟩)) = _
  rw [Nat.zero_add]
  congr 1
  unfold updateBar
  rw [dif_pos hib', hcv]

theorem update_run_getD (cfg : Config) (t : ℚ) (bars : List Bar) (i : ℕ)
    (ht : 0 ≤ t) (hr : 0 ≤ cfg.sample_rate)
    (hrun : start_sample t cfg.sample_rate + (num_bars : ℤ) < (cfg.audio_data.length : ℤ))
    (hi : i < bars.length) (hib : i < num_bars) :
    ((update_visualization cfg t bars).1.getD i default).scale.z
      = max (1/10)
          (|cfg.audio_data.getD ((start_sample t cfg.sample_rate).toNat + i) 0| * 10) := by
  rw [List.getD_eq_getElem?_getD, update_run_bar cfg t bars i ht hr hrun hi hib]
  rfl

theorem update_heights (cfg : Config) (t : ℚ) (bars : List Bar)
    (ht : 0 ≤ t) (hr : 0 ≤ cfg.sample_rate)
    (hrun : start_sample t cfg.sample_rate + (num_bars : ℤ) < (cfg.audio_data.length : ℤ))
    (hbars : bars.length = num_bars) :
    (update_visualization cfg t bars).1.map (fun b => b.scale.z) = heightsAt cfg t := by
  apply List.ext_getElem?
  intro i
  by_cases hib : i < num_bars
  · have hi : i < bars.length := by omega
    rw [List.getElem?_map, update_run_bar cfg t bars i ht hr hrun hi hib]
    rw [heightsAt, List.getElem?_map, List.getElem?_range hib]
    rfl
  · have h1 : ((update_visualization cfg t bars).1.map (fun b => b.scale.z)).length ≤ i := by
      rw [List.length_map, update_length]
      omega
    have h2 : (heightsAt cfg t).length ≤ i := by
      rw [heightsAt, List.length_map, List.length_range]
      omega
    rw [List.getElem?_eq_none h1, List.getElem?_eq_none h2]

theorem mem_updateBarsFrom (chunk : List ℚ) :
    ∀ (j : ℕ) (bars : List Bar) (b : Bar),
      b ∈ updateBarsFrom chunk j bars → ∃ i b₀, b₀ ∈ bars ∧ b = updateBar chunk i b₀
  | _, [], b => by simp [updateBarsFrom]
  | j, b₀ :: bs, b => by
      simp only [updateBarsFrom, List.mem_cons]
      rintro (rfl | h)
      · exact ⟨j, b₀, Or.inl rfl, rfl⟩
      · obtain ⟨i, b₁, hmem, rfl⟩ := mem_updateBarsFrom chunk (j + 1) bs b h
        exact ⟨i, b₁, Or.inr hmem, rfl⟩

theorem updateBar_scale_y (chunk : List ℚ) (i : ℕ) (b : Bar) :
    (updateBar chunk i b).scale.y = 1/10 ∨ updateBar chunk i b = b := by
  unfold updateBar
  split
  · exact Or.inl rfl
  · exact Or.inr rfl

theorem reachable_scale_y (cfg : Config) {bars : List Bar} (h : Reachable cfg bars) :
    ∀ b ∈ bars, b.scale.y = 1/10 := by
  induction h with
  | init =>
      intro b hb
      simp only [prepare_bars, List.mem_map] at hb
      obtain ⟨i, _, rfl⟩ := hb
      rfl
  | step t bars ht hre ih =>
      intro b hb
      simp only [update_visualization] at hb
      split at hb
      · exact ih b hb
      · obtain ⟨i, b₀, hmem, rfl⟩ := mem_updateBarsFrom _ _ _ _ hb
        rcases updateBar_scale_y _ i b₀ with hy | hy
        · exact hy
        · rw [hy]
          exact ih b₀ hmem

theorem updateBar_preserves (chunk : List ℚ) (i : ℕ) (b : Bar) (hy : b.scale.y = 1/10) :
    (updateBar chunk i b).scale.x = b.scale.x ∧
    (updateBar chunk i b).scale.y = b.scale.y ∧
    (updateBar chunk i b).pos = b.pos ∧
    (updateBar chunk i b).color = b.color := by
  unfold updateBar
  split
  · exact ⟨rfl, hy.symm, rfl, rfl⟩
  · exact ⟨rfl, rfl, rfl, rfl⟩

theorem playbackSample_bounds (x : ℚ) :
    -32768 ≤ playbackSample x ∧ playbackSample x ≤ 32767 := by
  unfold playbackSample toInt16
  have h1 : 0 ≤ (pyInt (x * 32767) + 32768) % 65536 :=
    Int.emod_nonneg _ (by norm_num)
  have h2 : (pyInt (x * 32767) + 32768) % 65536 < 65536 :=
    Int.emod_lt_of_pos _ (by norm_num)
  omega

theorem map_playbackSample_getD (l : List ℚ) (i : ℕ) (hi : i < l.length) :
    (l.map playbackSample).getD i 0 = playbackSample (l.getD i 0) := by
  rw [List.getD_eq_getElem?_getD, List.getElem?_map, List.getElem?_eq_getElem hi,
    List.getD_eq_getElem?_getD, List.getElem?_eq_getElem hi]
  rfl

theorem update_stop (cfg : Config) (t : ℚ) (bars : List Bar)
    (h : (cfg.audio_data.length : ℤ) ≤ start_sample t cfg.sample_rate + (num_bars : ℤ)) :
    update_visualization cfg t bars = (bars, .done) := by
  simp [update_visualization, h]

/-- Concrete configuration used by witnesses: 100 zero samples at rate 1. -/
def cfgW : Config := ⟨List.replicate 100 0, 1⟩

/-! ### Claims -/

/-- C1 (counterexample): the fixed-point conversion does not satisfy
`playbackSample = round(floatSample * 32767)` clipped to the 16-bit range:
at the sample `1/2` the code produces 16383 (truncation toward zero) while
round-then-clip produces 16384. -/
theorem C1_counterexample : playbackSample (1/2) ≠ specPlaybackSample (1/2) := by
  norm_num [playbackSample, specPlaybackSample, pyInt, toInt16, round_eq]

/-- C1 (amended): every playback sample equals the truncation toward zero of
the float sample times 32767, wrapped modulo 2^16 into the signed 16-bit
range (no rounding to nearest and no clipping), and in particular always
lies in [-32768, 32767]. -/
theorem C1_truncate_wrap (decoded : Option (RawAudio × ℚ)) (i : ℕ)
    (hi : i < (initVisualizer decoded).audio_data.length) :
    (initVisualizer decoded).playback_data.getD i 0
      = toInt16 (pyInt ((initVisualizer decoded).audio_data.getD i 0 * 32767)) ∧
    -32768 ≤ (initVisualizer decoded).playback_data.getD i 0 ∧
    (initVisualizer decoded).playback_data.getD i 0 ≤ 32767 := by
  have hpd : (initVisualizer decoded).playback_data
      = (initVisualizer decoded).audio_data.map playbackSample := rfl
  rw [hpd, map_playbackSample_getD _ i hi]
  exact ⟨rfl, playbackSample_bounds _⟩

/-- Witness for C1 at a decoded one-sample buffer holding `1/2`. -/
theorem C1_truncate_wrap_witness :
    0 < (initVisualizer (some (RawAudio.mono [1/2], 44100))).audio_data.length ∧
    ((initVisualizer (some (RawAudio.mono [1/2], 44100))).playback_data.getD 0 0
      = toInt16 (pyInt
          ((initVisualizer (some (RawAudio.mono [1/2], 44100))).audio_data.getD 0 0 * 32767)) ∧
    -32768 ≤ (initVisualizer (some (RawAudio.mono [1/2], 44100))).playback_data.getD 0 0 ∧
    (initVisualizer (some (RawAudio.mono [1/2], 44100))).playback_data.getD 0 0 ≤ 32767) :=
  ⟨by decide, C1_truncate_wrap (some (RawAudio.mono [1/2], 44100)) 0 (by decide)⟩

/-- C2: when the computed start index plus 64 reaches or passes the end of
the sample buffer, the frame update mutates no bar and returns the stop
signal, and the update at every later elapsed time likewise mutates no bar
and returns the stop signal (the stopped state is absorbing). -/
theorem C2_stop_absorbing (cfg : Config) (t t' : ℚ) (bars : List Bar)
    (ht : 0 ≤ t) (hr : 0 ≤ cfg.sample_rate) (htt : t ≤ t')
    (hstop : (cfg.audio_data.length : ℤ)
      ≤ start_sample t cfg.sample_rate + (num_bars : ℤ)) :
    update_visualization cfg t bars = (bars, .done) ∧
    update_visualization cfg t' bars = (bars, .done) := by
  have hmono := start_sample_mono ht htt hr
  exact ⟨update_stop cfg t bars hstop, update_stop cfg t' bars (by omega)⟩

/-- Witness for C2 on a two-sample buffer at times 0 and 5. -/
theorem C2_stop_absorbing_witness :
    update_visualization ⟨[0, 0], 1⟩ 0 [] = ([], .done) ∧
    update_visualization ⟨[0, 0], 1⟩ 5 [] = ([], .done) :=
  C2_stop_absorbing ⟨[0, 0], 1⟩ 0 5 [] (by norm_num) (by norm_num) (by norm_num)
    (by norm_num [start_sample, pyInt, num_bars])

/-- C3: on a running frame (the bounds guard passes), the height scale
component assigned to bar `i` equals
`max(0.1, |audio_data[start_sample + i]| * 10)`, and is never below 0.1. -/
theorem C3_bar_height (cfg : Config) (t : ℚ) (bars : List Bar) (i : ℕ)
    (ht : 0 ≤ t) (hr : 0 ≤ cfg.sample_rate)
    (hrun : start_sample t cfg.sample_rate + (num_bars : ℤ) < (cfg.audio_data.length : ℤ))
    (hbars : bars.length = num_bars) (hi : i < num_bars) :
    ((update_visualization cfg t bars).1.getD i default).scale.z
      = max (1/10)
          (|cfg.audio_data.getD ((start_sample t cfg.sample_rate).toNat + i) 0| * 10) ∧
    (1/10 : ℚ) ≤ ((update_visualization cfg t bars).1.getD i default).scale.z := by
  have h := update_run_getD cfg t bars i ht hr hrun (by omega) hi
  exact ⟨h, h ▸ le_max_left _ _⟩

/-- Witness for C3 on the witness configuration at time 0 and bar 0. -/
theorem C3_bar_height_witness :
    ((update_visualization cfgW 0 prepare_bars).1.getD 0 default).scale.z
      = max (1/10)
          (|cfgW.audio_data.getD ((start_sample 0 cfgW.sample_rate).toNat + 0) 0| * 10) ∧
    (1/10 : ℚ) ≤ ((update_visualization cfgW 0 prepare_bars).1.getD 0 default).scale.z :=
  C3_bar_height cfgW 0 prepare_bars 0 (by norm_num) (by decide)
    (by norm_num [cfgW, start_sample, pyInt, num_bars]) (by decide) (by decide)

/-- C4: for nonnegative elapsed time and sample rate, the computed sample
offset equals the floor of the elapsed time times the sample rate. -/
theorem C4_start_index_floor (t rate : ℚ) (ht : 0 ≤ t) (hr : 0 ≤ rate) :
    start_sample t rate = ⌊t * rate⌋ :=
  start_sample_eq_floor ht hr

/-- Witness for C4 at `t = 3/2`, `rate = 2`. -/
theorem C4_start_index_floor_witness :
    start_sample (3/2) 2 = ⌊(3/2 : ℚ) * 2⌋ ∧ start_sample (3/2) 2 = 3 :=
  ⟨C4_start_index_floor (3/2) 2 (by norm_num) (by norm_num),
    by norm_num [start_sample, pyInt]⟩

/-- C5: on a running frame the bar heights after the update are a function
of the elapsed time and the static sample buffer alone: the update of any
bar list of the proper length yields the heights `heightsAt cfg t`, so two
invocations at the same time over the same buffer assign identical heights
regardless of any other state. -/
theorem C5_pure (cfg : Config) (t : ℚ) (bars1 bars2 : List Bar)
    (ht : 0 ≤ t) (hr : 0 ≤ cfg.sample_rate)
    (hrun : start_sample t cfg.sample_rate + (num_bars : ℤ) < (cfg.audio_data.length : ℤ))
    (h1 : bars1.length = num_bars) (h2 : bars2.length = num_bars) :
    (update_visualization cfg t bars1).1.map (fun b => b.scale.z) = heightsAt cfg t ∧
    (update_visualization cfg t bars1).1.map (fun b => b.scale.z)
      = (update_visualization cfg t bars2).1.map (fun b => b.scale.z) := by
  have e1 := update_heights cfg t bars1 ht hr hrun h1
  have e2 := update_heights cfg t bars2 ht hr hrun h2
  exact ⟨e1, e1.trans e2.symm⟩

/-- Witness for C5: the initial bars and an arbitrary 64-bar list get the
same heights at time 0. -/
theorem C5_pure_witness :
    (update_visualization cfgW 0 prepare_bars).1.map (fun b => b.scale.z)
      = heightsAt cfgW 0 ∧
    (update_visualization cfgW 0 prepare_bars).1.map (fun b => b.scale.z)
      = (update_visualization cfgW 0 (List.replicate num_bars default)).1.map
          (fun b => b.scale.z) :=
  C5_pure cfgW 0 prepare_bars (List.replicate num_bars default) (by norm_num) (by decide)
    (by norm_num [cfgW, start_sample, pyInt, num_bars]) (by decide) (by decide)

/-- C6: from any reachable bar list, a frame update changes only the height
component of each bar's scale: the width and depth scale components, the
position and the color of every bar hold the same values after the update
as before it. -/
theorem C6_only_height (cfg : Config) (bars : List Bar) (h : Reachable cfg bars)
    (t : ℚ) (i : ℕ) :
    ((update_visualization cfg t bars).1.getD i default).scale.x
        = (bars.getD i default).scale.x ∧
    ((update_visualization cfg t bars).1.getD i default).scale.y
        = (bars.getD i default).scale.y ∧
    ((update_visualization cfg t bars).1.getD i default).pos
        = (bars.getD i default).pos ∧
    ((update_visualization cfg t bars).1.getD i default).color
        = (bars.getD i default).color := by
  by_cases hcond : (cfg.audio_data.length : ℤ)
      ≤ start_sample t cfg.sample_rate + (num_bars : ℤ)
  · rw [update_stop cfg t bars hcond]
    exact ⟨rfl, rfl, rfl, rfl⟩
  · rw [update_run cfg t bars (not_le.mp hcond)]
    by_cases hi : i < bars.length
    · have hb : bars[i]? = some (bars.get ⟨i, hi⟩) := List.getElem?_eq_getElem hi
      have hres : ((updateBarsFrom (chunkAt cfg (start_sample t cfg.sample_rate)) 0 bars,
          TaskSignal.cont).1)[i]?
          = some (updateBar (chunkAt cfg (start_sample t cfg.sample_rate)) i
              (bars.get ⟨i, hi⟩)) := by
        show (updateBarsFrom (chunkAt cfg (start_sample t cfg.sample_rate)) 0 bars)[i]? = _
        rw [updateBarsFrom_getElem?, Nat.zero_add, hb]
        rfl
      have hy : (bars.get ⟨i, hi⟩).scale.y = 1/10 :=
        reachable_scale_y cfg h _ (List.get_mem bars i hi)
      have hp := updateBar_preserves (chunkAt cfg (start_sample t cfg.sample_rate)) i
        (bars.get ⟨i, hi⟩) hy
      rw [List.getD_eq_getElem?_getD, hres, List.getD_eq_getElem?_getD, hb]
      exact hp
    · have hl : bars.length ≤ i := le_of_not_lt hi
      have h1 : ((updateBarsFrom (chunkAt cfg (start_sample t cfg.sample_rate)) 0 bars,
          TaskSignal.cont).1).getD i default = (default : Bar) := by
        show (updateBarsFrom (chunkAt cfg (start_sample t cfg.sample_rate)) 0 bars).getD
          i default = _
        rw [List.getD_eq_getElem?_getD,
          List.getElem?_eq_none (by rw [updateBarsFrom_length]; omega)]
        rfl
      have h2 : bars.getD i default = (default : Bar) := by
        rw [List.getD_eq_getElem?_getD, List.getElem?_eq_none hl]
        rfl
      rw [h1, h2]
      exact ⟨rfl, rfl, rfl, rfl⟩

/-- Witness for C6 at the initial bars, time 0, bar 0. -/
theorem C6_only_height_witness :
    ((update_visualization cfgW 0 prepare_bars).1.getD 0 default).scale.x
        = (prepare_bars.getD 0 default).scale.x ∧
    ((update_visualization cfgW 0 prepare_bars).1.getD 0 default).scale.y
        = (prepare_bars.getD 0 default).scale.y ∧
    ((update_visualization cfgW 0 prepare_bars).1.getD 0 default).pos
        = (prepare_bars.getD 0 default).pos ∧
    ((update_visualization cfgW 0 prepare_bars).1.getD 0 default).color
        = (prepare_bars.getD 0 default).color :=
  C6_only_height cfgW prepare_bars Reachable.init 0 0

/-- C7: the mono buffer used for visualization is, at every sample position,
the arithmetic mean of the channel values of a multi-channel buffer, and a
buffer that is already mono is left unchanged. -/
theorem C7_downmix (frames : List (List ℚ)) (R : ℕ) (samples : List ℚ) (i : ℕ)
    (hR : 0 < R) (hf : ∀ f ∈ frames, f.length = R) (hi : i < frames.length) :
    (toMono (RawAudio.multi frames)).getD i 0
      = (frames.getD i []).sum / (R : ℚ) ∧
    toMono (RawAudio.mono samples) = samples := by
  refine ⟨?_, rfl⟩
  have hb : frames[i]? = some (frames.get ⟨i, hi⟩) := List.getElem?_eq_getElem hi
  have hmem : frames.get ⟨i, hi⟩ ∈ frames := List.get_mem frames i hi
  show ((frames.map fun f => f.sum / (f.length : ℚ)).getD i 0) = _
  rw [List.getD_eq_getElem?_getD, List.getElem?_map, hb, List.getD_eq_getElem?_getD, hb]
  show (frames.get ⟨i, hi⟩).sum / ((frames.get ⟨i, hi⟩).length : ℚ) = _
  rw [hf _ hmem]
  rfl

/-- Witness for C7 on one stereo frame `[1, 3]` and the mono buffer `[5]`. -/
theorem C7_downmix_witness :
    (toMono (RawAudio.multi [[1, 3]])).getD 0 0 = ([[1, 3]].getD 0 []).sum / ((2 : ℕ) : ℚ) ∧
    toMono (RawAudio.mono [5]) = [5] :=
  C7_downmix [[1, 3]] 2 [5] 0 (by norm_num) (by decide) (by decide)

/-- C8: on decode failure the program does not terminate: it proceeds with
the 1024-sample all-zero buffer at the default rate 44100, and playback
submission, scene setup, bar creation and update scheduling still run. -/
theorem C8_decode_fallback :
    (initVisualizer none).terminated = false ∧
    (initVisualizer none).audio_data = List.replicate 1024 0 ∧
    (initVisualizer none).sample_rate = 44100 ∧
    (initVisualizer none).playbackSubmitted = true ∧
    (initVisualizer none).sceneSetup = true ∧
    (initVisualizer none).bars = prepare_bars ∧
    (initVisualizer none).updateScheduled = true :=
  ⟨rfl, rfl, rfl, rfl, rfl, rfl, rfl⟩

/-- C9: when the hardcoded input file path does not exist, `main` prints the
file-not-found message and returns without constructing the application
object, so no window, audio or scene initialization is performed. -/
theorem C9_missing_file (decoded : Option (RawAudio × ℚ)) :
    pyMain false decoded = { printedNotFound := true, app := none } :=
  rfl

/-- C10: past the bounds guard the extracted chunk has exactly 64 elements,
each read index `start_sample + i` is within the sample buffer, the per-bar
guard `i < len(chunk)` holds, the callback is rescheduled, and bar `i`
receives its height update. -/
theorem C10_bounds_safe (cfg : Config) (t : ℚ) (bars : List Bar) (i : ℕ)
    (ht : 0 ≤ t) (hr : 0 ≤ cfg.sample_rate)
    (hrun : start_sample t cfg.sample_rate + (num_bars : ℤ) < (cfg.audio_data.length : ℤ))
    (hbars : bars.length = num_bars) (hi : i < num_bars) :
    (chunkAt cfg (start_sample t cfg.sample_rate)).length = num_bars ∧
    (start_sample t cfg.sample_rate).toNat + i < cfg.audio_data.length ∧
    i < (chunkAt cfg (start_sample t cfg.sample_rate)).length ∧
    (update_visualization cfg t bars).2 = TaskSignal.cont ∧
    ((update_visualization cfg t bars).1.getD i default).scale.z
      = max (1/10)
          (|cfg.audio_data.getD ((start_sample t cfg.sample_rate).toNat + i) 0| * 10) := by
  have h0 : 0 ≤ start_sample t cfg.sample_rate := start_sample_nonneg ht hr
  have hclen : (chunkAt cfg (start_sample t cfg.sample_rate)).length = num_bars :=
    chunkAt_length cfg _ h0 (le_of_lt hrun)
  refine ⟨hclen, by omega, by omega, ?_,
    update_run_getD cfg t bars i ht hr hrun (by omega) hi⟩
  rw [update_run cfg t bars hrun]

/-- Witness for C10 on the witness configuration at time 0 and bar 0. -/
theorem C10_bounds_safe_witness :
    (chunkAt cfgW (start_sample 0 cfgW.sample_rate)).length = num_bars ∧
    (start_sample 0 cfgW.sample_rate).toNat + 0 < cfgW.audio_data.length ∧
    0 < (chunkAt cfgW (start_sample 0 cfgW.sample_rate)).length ∧
    (update_visualization cfgW 0 prepare_bars).2 = TaskSignal.cont ∧
    ((update_visualization cfgW 0 prepare_bars).1.getD 0 default).scale.z
      = max (1/10)
          (|cfgW.audio_data.getD ((start_sample 0 cfgW.sample_rate).toNat + 0) 0| * 10) :=
  C10_bounds_safe cfgW 0 prepare_bars 0 (by norm_num) (by decide)
    (by norm_num [cfgW, start_sample, pyInt, num_bars]) (by decide) (by decide)

end AudioVisualizer
